import Mathlib

/-!
Verification of the daily-history ledger, streak computation, timer tick,
day rollover and load-time reconciliation of the zenhydratation app
(embedded from `src/lib/history.js` and `src/ZenhydratationApp.jsx`).

Modelling conventions:
* JavaScript numbers are modelled as `Nat` for in-app counters and timers
  (they are only ever incremented from 0 or reset to configured values),
  and as `Int` for values restored from persisted storage, which may be
  arbitrary integers.
* JavaScript strings with their `<` comparison are modelled as `String`
  with its lexicographic order.
* The JS `Array.prototype.sort` call is modelled by `List.mergeSort` with
  the same comparator (`(a, b) => (a.dayKey < b.dayKey ? -1 : 1)`, i.e.
  "`a` before `b` iff `a.dayKey < b.dayKey`").
-/

namespace Zen

/-- A ledger entry `{ dayKey, water, eyeBreaks, stretches, workTime }`
(the entry shape documented in `src/lib/history.js` and the `todayStats`
state object of `src/ZenhydratationApp.jsx`). -/
structure DayRecord where
  dayKey : String
  water : Nat
  eyeBreaks : Nat
  stretches : Nat
  workTime : Nat
  deriving Repr, DecidableEq

/-- The comparator passed to `.sort` in both upsert implementations:
`(a, b) => (a.dayKey < b.dayKey ? -1 : 1)` puts `a` before `b`
exactly when `a.dayKey < b.dayKey`. -/
def byDayKey (a b : DayRecord) : Bool := a.dayKey.data < b.dayKey.data

/-- The upsert effect of `ZenhydratationApp.jsx` (the `setHistory` updater in
the "Upsert today into history" effect): drop any entry with today's
`dayKey`, append `todayStats`, sort by `dayKey`, keep the last 30. -/
def upsertEffect (prev : List DayRecord) (todayStats : DayRecord) : List DayRecord :=
  let current := todayStats.dayKey
  let without := prev.filter (fun e => e.dayKey != current)
  let next := (without ++ [todayStats]).mergeSort byDayKey
  next.drop (next.length - 30)

/-- The function `upsertTodayStats` from `src/lib/history.js`: find the index of today's
`dayKey` (`findIndex`; found iff the index is `< history.length`), replace
that entry, otherwise push; then sort by `dayKey` and keep the last
`maxDays`.  The JS replacement is `{ ...history[idx], ...todayStats,
dayKey: dk }` with `dk = todayStats.dayKey ?? dateKey()`; since a modelled
`DayRecord` carries all its fields, every field of the merged object comes
from `todayStats` and `dk` is `todayStats.dayKey`. -/
def upsertTodayStats (history : List DayRecord) (todayStats : DayRecord)
    (maxDays : Nat := 30) : List DayRecord :=
  let dk := todayStats.dayKey
  let idx := history.findIdx (fun e => e.dayKey == dk)
  let updated :=
    if idx < history.length then
      history.set idx { todayStats with dayKey := dk }
    else
      history ++ [{ todayStats with dayKey := dk }]
  let sorted := updated.mergeSort byDayKey
  sorted.drop (sorted.length - maxDays)

/-- The spec's sort invariant: non-decreasing by `dayKey` string
comparison. -/
def keyLE (a b : DayRecord) : Prop := a.dayKey.data ≤ b.dayKey.data

/-- Merging two lists that are non-decreasing by `dayKey` with the strict
comparator `byDayKey` yields a list that is non-decreasing by `dayKey`. -/
theorem pairwise_keyLE_merge (l₁ l₂ : List DayRecord) (h₁ : l₁.Pairwise keyLE)
    (h₂ : l₂.Pairwise keyLE) : (List.merge l₁ l₂ byDayKey).Pairwise keyLE := by
  induction l₁ generalizing l₂ with
  | nil => simpa only [List.merge]
  | cons x l₁ ih₁ =>
    induction l₂ with
    | nil => simpa only [List.merge]
    | cons y l₂ ih₂ =>
      simp only [List.merge]
      split
      case isTrue h =>
        apply List.Pairwise.cons
        · intro z m
          rw [List.mem_merge, List.mem_cons] at m
          have hxy : x.dayKey.data < y.dayKey.data := of_decide_eq_true h
          rcases m with m | rfl | m
          · exact List.rel_of_pairwise_cons h₁ m
          · exact le_of_lt hxy
          · exact le_trans (le_of_lt hxy) (List.rel_of_pairwise_cons h₂ m)
        · exact ih₁ _ h₁.tail h₂
      case isFalse h =>
        apply List.Pairwise.cons
        · intro z m
          rw [List.mem_merge, List.mem_cons] at m
          have hnlt : ¬ (x.dayKey.data < y.dayKey.data) := fun hlt => h (decide_eq_true hlt)
          have hyx : y.dayKey.data ≤ x.dayKey.data := le_of_not_lt hnlt
          rcases m with (rfl | m) | m
          · exact hyx
          · exact le_trans hyx (List.rel_of_pairwise_cons h₁ m)
          · exact List.rel_of_pairwise_cons h₂ m
        · exact ih₂ h₂.tail

/-- Sorting any list of records with the strict comparator `byDayKey`
yields a list that is non-decreasing by `dayKey`. -/
theorem pairwise_keyLE_mergeSort : ∀ l : List DayRecord,
    (l.mergeSort byDayKey).Pairwise keyLE
  | [] => by simp
  | [a] => by simp
  | a :: b :: xs => by
    have : (List.splitInTwo ⟨a :: b :: xs, rfl⟩).1.1.length < xs.length + 1 + 1 := by
      simp [List.splitInTwo_fst]; omega
    have : (List.splitInTwo ⟨a :: b :: xs, rfl⟩).2.1.length < xs.length + 1 + 1 := by
      simp [List.splitInTwo_snd]; omega
    rw [List.mergeSort]
    exact pairwise_keyLE_merge _ _ (pairwise_keyLE_mergeSort _) (pairwise_keyLE_mergeSort _)
termination_by l => l.length

/-- Every output of the app's upsert effect is non-decreasing by `dayKey`. -/
theorem pairwise_keyLE_upsertEffect (prev : List DayRecord) (p : DayRecord) :
    (upsertEffect prev p).Pairwise keyLE :=
  (pairwise_keyLE_mergeSort _).sublist (List.drop_sublist _ _)

/-- Every output of `upsertTodayStats` is non-decreasing by `dayKey`. -/
theorem pairwise_keyLE_upsertTodayStats (history : List DayRecord) (p : DayRecord)
    (maxDays : Nat) : (upsertTodayStats history p maxDays).Pairwise keyLE :=
  (pairwise_keyLE_mergeSort _).sublist (List.drop_sublist _ _)

/-! ### Dates and the streak calculator (`computeStreak`) -/

/-- A local calendar date, as produced by `new Date(y, m, d)` with the
month written 1-based (JS `getMonth() + 1`). -/
structure Date where
  year : Nat
  month : Nat
  day : Nat
  deriving Repr, DecidableEq

/-- Embeds `String(n).padStart(2, "0")`. -/
def pad2 (n : Nat) : String := if n < 10 then "0" ++ toString n else toString n

/-- The function `dateKey` from `src/lib/history.js` (named `dayKey` in
`ZenhydratationApp.jsx`): `` `${y}-${m}-${day}` `` with the month and day
zero-padded to two digits. -/
def dateKey (d : Date) : String :=
  toString d.year ++ "-" ++ pad2 d.month ++ "-" ++ pad2 d.day

/-- Day count of a Gregorian month, as used by JS `Date` normalization. -/
def daysInMonth (y m : Nat) : Nat :=
  if m = 2 then
    if y % 4 = 0 && (y % 100 != 0 || y % 400 = 0) then 29 else 28
  else if m = 4 || m = 6 || m = 9 || m = 11 then 30
  else 31

/-- Embeds `new Date(y, m, d - 1)`: JS `Date` normalizes a zero day-of-month to
the last day of the previous month, and a month underflow to December of
the previous year. -/
def prevDay (d : Date) : Date :=
  if d.day > 1 then { d with day := d.day - 1 }
  else if d.month > 1 then
    { year := d.year, month := d.month - 1, day := daysInMonth d.year (d.month - 1) }
  else
    { year := d.year - 1, month := 12, day := 31 }

/-- The lookup in `new Map(history.map((e) => [e.dayKey, e]))`: when several
entries share a `dayKey` the later one wins, so this is the last match. -/
def mapGet (history : List DayRecord) (dk : String) : Option DayRecord :=
  history.reverse.find? (fun e => e.dayKey == dk)

/-- The function `isActiveDay` from `src/lib/history.js` / `ZenhydratationApp.jsx`:
`(entry.water ?? 0) > 0 || (entry.eyeBreaks ?? 0) > 0 || (entry.stretches ?? 0) > 0`. -/
def isActiveDay (entry : DayRecord) : Bool :=
  entry.water > 0 || entry.eyeBreaks > 0 || entry.stretches > 0

/-- The while-true walk of `computeStreak`, with explicit fuel.  Each
iteration looks up the cursor's key; a missing or inactive entry breaks
the walk, an active one counts and moves the cursor one day back. -/
def streakLoop (history : List DayRecord) (cursor : Date) : Nat → Nat
  | 0 => 0
  | fuel + 1 =>
    match mapGet history (dateKey cursor) with
    | none => 0
    | some e =>
      if isActiveDay e then streakLoop history (prevDay cursor) fuel + 1 else 0

/-- Embeds `computeStreak(history, today)`: consecutive active days walking
backward from `today`.  Each counted iteration consumes a distinct key of
the finite `history` map, so `history.length + 1` iterations always
suffice for the JS loop to have broken. -/
def computeStreak (history : List DayRecord) (today : Date) : Nat :=
  streakLoop history today (history.length + 1)

/-! ### The per-second tick of the main timers effect -/

/-- Which module a "break due" notification event is for. -/
inductive BreakKind where
  | eye
  | stretch
  deriving Repr, DecidableEq

/-- The state read and written by one tick of the main timers effect. -/
structure TickState where
  eyeBreakTimer : Nat
  stretchTimer : Nat
  todayStats : DayRecord
  deriving Repr, DecidableEq

/-- One firing of the interval in the "Main timers" effect of
`ZenhydratationApp.jsx`: if paused the effect installed no interval, so
nothing happens; otherwise each countdown at `<= 1` fires its "break due"
event and resets to its configured interval, else decrements, and
`workTime` gains one second.  The returned list collects the
`triggerNotification` events of the tick. -/
def tick (isPaused : Bool) (eyeBreakInterval stretchInterval : Nat)
    (s : TickState) : TickState × List BreakKind :=
  if isPaused then (s, [])
  else
    let (eyeT, eyeEvents) :=
      if s.eyeBreakTimer ≤ 1 then (eyeBreakInterval, [BreakKind.eye])
      else (s.eyeBreakTimer - 1, [])
    let (stretchT, stretchEvents) :=
      if s.stretchTimer ≤ 1 then (stretchInterval, [BreakKind.stretch])
      else (s.stretchTimer - 1, [])
    (⟨eyeT, stretchT,
      { s.todayStats with workTime := s.todayStats.workTime + 1 }⟩,
     eyeEvents ++ stretchEvents)

/-! ### The 30-second rollover check -/

/-- The app state touched by the rollover effect of
`ZenhydratationApp.jsx`. -/
structure AppState where
  eyeBreakInterval : Nat
  stretchInterval : Nat
  waterCount : Nat
  eyeBreakTimer : Nat
  stretchTimer : Nat
  isPaused : Bool
  todayStats : DayRecord
  showNotif : Option BreakKind
  showExercise : Option BreakKind
  lastDay : String
  deriving Repr, DecidableEq

/-- One firing of the 30-second rollover interval: if the current `dayKey`
differs from the last observed one, zero `todayStats` for the new day,
zero the water count, reset both countdowns to their configured intervals,
clear the notification / exercise UI state and unpause. -/
def rolloverCheck (current : String) (s : AppState) : AppState :=
  if s.lastDay != current then
    { s with
      lastDay := current
      todayStats := ⟨current, 0, 0, 0, 0⟩
      waterCount := 0
      eyeBreakTimer := s.eyeBreakInterval
      stretchTimer := s.stretchInterval
      showNotif := none
      showExercise := none
      isPaused := false }
  else s

/-! ### Persistence reads (`safeParse`, `readLS`, `loadHistory`) -/

/-- A parsed JSON value.  `JSON.parse` itself is external; it is modelled
below as a function `String → Option Json` returning `none` when it
throws. -/
inductive Json where
  | null
  | bool (b : Bool)
  | num (n : Int)
  | str (s : String)
  | arr (elems : List Json)
  | obj (fields : List (String × Json))

/-- The function `safeParse` from `ZenhydratationApp.jsx`: `JSON.parse` inside
`try`/`catch`, the fallback returned on a parse error. -/
def safeParse (parse : String → Option Json) (json : String) (fallback : Json) : Json :=
  match parse json with
  | some v => v
  | none => fallback

/-- The function `readLS` from `ZenhydratationApp.jsx`: an absent (`null`) or empty
stored value is falsy and yields the fallback, otherwise `safeParse`. -/
def readLS (parse : String → Option Json) (stored : Option String) (fallback : Json) : Json :=
  match stored with
  | none => fallback
  | some v => if v == "" then fallback else safeParse parse v fallback

/-- The function `loadHistory` from `src/lib/history.js`: a missing or empty stored
value, a parse failure, or a non-array parse result all yield `[]`;
otherwise the parsed array. -/
def loadHistory (parse : String → Option Json) (stored : Option String) : List Json :=
  match stored with
  | none => []
  | some value =>
    if value == "" then []
    else
      match parse value with
      | none => []
      | some (Json.arr elems) => elems
      | some _ => []

/-! ### Load-time reconciliation of the state snapshot -/

/-- The function `clampInt` from `ZenhydratationApp.jsx`, on integer inputs:
`Math.min(max, Math.max(min, Math.floor(v)))`; `Math.floor` is the
identity on integers and the `NaN` guard cannot fire on them. -/
def clampInt (n mn mx : Int) : Int := min mx (max mn n)

/-- The todayStats object inside a persisted snapshot; `none` models an
absent field (or one of the wrong JS type, which the guards treat the
same way). -/
structure SnapToday where
  dayKey : Option String
  water : Option Int
  eyeBreaks : Option Int
  stretches : Option Int
  workTime : Option Int
  deriving Repr, DecidableEq

/-- A persisted state snapshot (the parsed value at the state key), with
`none` modelling an absent field or one failing its `typeof` guard. -/
structure Snapshot where
  waterGoal : Option Int
  eyeBreakInterval : Option Int
  stretchInterval : Option Int
  soundEnabled : Option Bool
  darkMode : Option Bool
  waterCount : Option Int
  eyeBreakTimer : Option Int
  stretchTimer : Option Int
  isPaused : Option Bool
  todayStats : Option SnapToday
  deriving Repr, DecidableEq

/-- Today's stats as loaded from storage (restored values may be any
integers before clamping). -/
structure TodayStatsL where
  dayKey : String
  water : Int
  eyeBreaks : Int
  stretches : Int
  workTime : Int
  deriving Repr, DecidableEq

/-- The component state assembled by the load effect. -/
structure LoadedState where
  waterGoal : Int
  eyeBreakInterval : Int
  stretchInterval : Int
  soundEnabled : Bool
  darkMode : Bool
  todayStats : TodayStatsL
  waterCount : Int
  eyeBreakTimer : Int
  stretchTimer : Int
  isPaused : Bool
  deriving Repr, DecidableEq

/-- The initial `useState` values of the component: goal 8, eye interval
1200 s, stretch interval 3600 s, counters zero, timers at the default
intervals, not paused, `todayStats` zeroed at the current day. -/
def initialState (current : String) : LoadedState :=
  ⟨8, 1200, 3600, false, false, ⟨current, 0, 0, 0, 0⟩, 0, 1200, 3600, false⟩

/-- The load effect of `ZenhydratationApp.jsx` (state part).  Settings
present in the snapshot are restored clamped.  Then, if
`s.todayStats?.dayKey === current`, counters and timers are restored
clamped; otherwise counters start at zero, the timers are set to
`s.eyeBreakInterval ?? 1200` and `s.stretchInterval ?? 3600` as stored
(not clamped), and the session is unpaused. -/
def loadState (s? : Option Snapshot) (current : String) : LoadedState :=
  match s? with
  | none => initialState current
  | some s =>
    let base := initialState current
    let waterGoal := match s.waterGoal with
      | some v => clampInt v 6 12
      | none => base.waterGoal
    let eyeBreakInterval := match s.eyeBreakInterval with
      | some v => clampInt v 600 7200
      | none => base.eyeBreakInterval
    let stretchInterval := match s.stretchInterval with
      | some v => clampInt v 900 10800
      | none => base.stretchInterval
    let soundEnabled := s.soundEnabled.getD base.soundEnabled
    let darkMode := s.darkMode.getD base.darkMode
    let newDay : LoadedState :=
      { waterGoal := waterGoal, eyeBreakInterval := eyeBreakInterval,
        stretchInterval := stretchInterval, soundEnabled := soundEnabled,
        darkMode := darkMode,
        todayStats := ⟨current, 0, 0, 0, 0⟩,
        waterCount := 0,
        eyeBreakTimer := s.eyeBreakInterval.getD 1200,
        stretchTimer := s.stretchInterval.getD 3600,
        isPaused := false }
    match s.todayStats with
    | some ts =>
      if ts.dayKey = some current then
        { waterGoal := waterGoal, eyeBreakInterval := eyeBreakInterval,
          stretchInterval := stretchInterval, soundEnabled := soundEnabled,
          darkMode := darkMode,
          todayStats := ⟨current, clampInt (ts.water.getD 0) 0 500,
            clampInt (ts.eyeBreaks.getD 0) 0 500,
            clampInt (ts.stretches.getD 0) 0 500,
            clampInt (ts.workTime.getD 0) 0 (24 * 3600)⟩,
          waterCount := clampInt (s.waterCount.getD 0) 0 200,
          eyeBreakTimer := clampInt (s.eyeBreakTimer.getD 1200) 1 7200,
          stretchTimer := clampInt (s.stretchTimer.getD 3600) 1 10800,
          isPaused := s.isPaused.getD false }
      else newDay
    | none => newDay

/-! ### Reachable ledgers -/

/-- A ledger produced by a sequence of upserts through the app's upsert
effect, starting from the empty ledger. -/
def runUpserts (ops : List DayRecord) : List DayRecord :=
  ops.foldl upsertEffect []

/-- The same through `upsertTodayStats` with its default `maxDays = 30`. -/
def runUpsertsHistory (ops : List DayRecord) : List DayRecord :=
  ops.foldl (fun acc p => upsertTodayStats acc p 30) []

/-! ### Helper lemmas -/

/-- Unfolding one iteration of the streak walk. -/
theorem streakLoop_succ (history : List DayRecord) (cursor : Date) (fuel : Nat) :
    streakLoop history cursor (fuel + 1) =
      match mapGet history (dateKey cursor) with
      | none => 0
      | some e =>
        if isActiveDay e then streakLoop history (prevDay cursor) fuel + 1 else 0 := rfl

end Zen

namespace Zen

/-- C4: for every history list and every today date, if the record for
today's `dayKey` is absent or has all tracked counters equal to zero
(`isActiveDay` false), `computeStreak` returns 0 regardless of the rest
of the history. -/
theorem claim_C4_streak_reset (history : List DayRecord) (today : Date)
    (h : (mapGet history (dateKey today)).all (fun e => !isActiveDay e) = true) :
    computeStreak history today = 0 := by
  unfold computeStreak
  rw [streakLoop_succ]
  cases hm : mapGet history (dateKey today) with
  | none => simp
  | some e =>
    rw [hm] at h
    simp only [Option.all] at h
    have : isActiveDay e = false := by simpa using h
    simp [this]

/-- Witness for C4 at a concrete inactive today record. -/
theorem claim_C4_streak_reset_witness :
    (Zen.mapGet [⟨"2024-01-01", 0, 0, 0, 0⟩] (Zen.dateKey ⟨2024, 1, 1⟩)).all
        (fun e => !Zen.isActiveDay e) = true ∧
    Zen.computeStreak [⟨"2024-01-01", 0, 0, 0, 0⟩] ⟨2024, 1, 1⟩ = 0 :=
  ⟨by decide, claim_C4_streak_reset [⟨"2024-01-01", 0, 0, 0, 0⟩] ⟨2024, 1, 1⟩ (by decide)⟩

/-- C5: `computeStreak` counts consecutive active days walking backward
from today and stops at the first missing or inactive day: with active
records for days D, D−1, D−2 and no record for D−3 it returns exactly 3;
and on the ledger `[{2024-01-01, water 3}, {2024-01-02, water 0},
{2024-01-03, water 5}]` with today `2024-01-03` it returns exactly 1. -/
theorem claim_C5_streak_walk :
    (∀ (history : List DayRecord) (d : Date) (e0 e1 e2 : DayRecord),
      3 ≤ history.length →
      mapGet history (dateKey d) = some e0 → isActiveDay e0 = true →
      mapGet history (dateKey (prevDay d)) = some e1 → isActiveDay e1 = true →
      mapGet history (dateKey (prevDay (prevDay d))) = some e2 → isActiveDay e2 = true →
      mapGet history (dateKey (prevDay (prevDay (prevDay d)))) = none →
      computeStreak history d = 3) ∧
    computeStreak [⟨"2024-01-01", 3, 0, 0, 0⟩, ⟨"2024-01-02", 0, 0, 0, 0⟩,
      ⟨"2024-01-03", 5, 0, 0, 0⟩] ⟨2024, 1, 3⟩ = 1 := by
  constructor
  · intro history d e0 e1 e2 hlen h0 a0 h1 a1 h2 a2 h3
    obtain ⟨k, hk⟩ : ∃ k, history.length = k + 3 := ⟨history.length - 3, by omega⟩
    have s3 : streakLoop history (prevDay (prevDay (prevDay d))) (k + 1) = 0 := by
      rw [streakLoop_succ]; simp [h3]
    have s2 : streakLoop history (prevDay (prevDay d)) (k + 1 + 1) = 1 := by
      rw [streakLoop_succ]; simp [h2, a2, s3]
    have s1 : streakLoop history (prevDay d) (k + 1 + 1 + 1) = 2 := by
      rw [streakLoop_succ]; simp [h1, a1, s2]
    have s0 : streakLoop history d (k + 1 + 1 + 1 + 1) = 3 := by
      rw [streakLoop_succ]; simp [h0, a0, s1]
    unfold computeStreak
    rw [show history.length + 1 = k + 1 + 1 + 1 + 1 from by omega, s0]
  · decide

/-- Witness for C5 at a concrete three-day active run ending at a
leap-day boundary (`2024-03-03` back to `2024-03-01`, `2024-02-29`
absent). -/
theorem claim_C5_streak_walk_witness :
    Zen.computeStreak [⟨"2024-03-01", 1, 0, 0, 0⟩, ⟨"2024-03-02", 1, 0, 0, 0⟩,
      ⟨"2024-03-03", 1, 0, 0, 0⟩] ⟨2024, 3, 3⟩ = 3 :=
  claim_C5_streak_walk.1 _ ⟨2024, 3, 3⟩ ⟨"2024-03-03", 1, 0, 0, 0⟩
    ⟨"2024-03-02", 1, 0, 0, 0⟩ ⟨"2024-03-01", 1, 0, 0, 0⟩ (by decide) (by decide)
    (by decide) (by decide) (by decide) (by decide) (by decide) (by decide)

/-- C6: in a running state with `eyeBreakInterval = 1200` and
`eyeBreakTimer = 1`, one tick resets the eye countdown to 1200 and emits
exactly one eye "break due" event; a tick at any other valid countdown
value (`≥ 2`) decrements it by one and emits no eye event. -/
theorem claim_C6_eye_tick (s : TickState) (stretchInterval : Nat) :
    (s.eyeBreakTimer = 1 →
      (tick false 1200 stretchInterval s).1.eyeBreakTimer = 1200 ∧
      (tick false 1200 stretchInterval s).2.count BreakKind.eye = 1) ∧
    (∀ eyeBreakInterval, 2 ≤ s.eyeBreakTimer →
      (tick false eyeBreakInterval stretchInterval s).1.eyeBreakTimer = s.eyeBreakTimer - 1 ∧
      (tick false eyeBreakInterval stretchInterval s).2.count BreakKind.eye = 0) := by
  constructor
  · intro h1
    by_cases hst : s.stretchTimer ≤ 1 <;>
      simp [tick, h1, hst, List.count_cons, List.count_append]
  · intro eyeBreakInterval h2
    have hne : ¬ s.eyeBreakTimer ≤ 1 := by omega
    by_cases hst : s.stretchTimer ≤ 1 <;>
      simp [tick, hne, hst, List.count_cons, List.count_append]

/-- Witness for C6: the reset branch at timer 1 and the decrement branch
at timer 5. -/
theorem claim_C6_eye_tick_witness :
    ((Zen.tick false 1200 100 ⟨1, 100, ⟨"2024-01-01", 0, 0, 0, 0⟩⟩).1.eyeBreakTimer = 1200 ∧
     (Zen.tick false 1200 100 ⟨1, 100, ⟨"2024-01-01", 0, 0, 0, 0⟩⟩).2.count Zen.BreakKind.eye = 1) ∧
    ((Zen.tick false 1200 100 ⟨5, 100, ⟨"2024-01-01", 0, 0, 0, 0⟩⟩).1.eyeBreakTimer = 4 ∧
     (Zen.tick false 1200 100 ⟨5, 100, ⟨"2024-01-01", 0, 0, 0, 0⟩⟩).2.count Zen.BreakKind.eye = 0) :=
  ⟨(claim_C6_eye_tick ⟨1, 100, ⟨"2024-01-01", 0, 0, 0, 0⟩⟩ 100).1 rfl,
   (claim_C6_eye_tick ⟨5, 100, ⟨"2024-01-01", 0, 0, 0, 0⟩⟩ 100).2 1200 (by decide)⟩

/-- C7: whenever the rollover check observes a current `dayKey` different
from the last observed one, the resulting state has all of today's
counters (and the water count) at zero for the new day and both
countdowns reset to their full configured intervals. -/
theorem claim_C7_rollover_resets (s : AppState) (current : String)
    (h : s.lastDay ≠ current) :
    (rolloverCheck current s).todayStats = ⟨current, 0, 0, 0, 0⟩ ∧
    (rolloverCheck current s).waterCount = 0 ∧
    (rolloverCheck current s).eyeBreakTimer = s.eyeBreakInterval ∧
    (rolloverCheck current s).stretchTimer = s.stretchInterval := by
  simp [rolloverCheck, bne_iff_ne, h]

/-- Witness for C7 at a concrete state with non-zero counters. -/
theorem claim_C7_rollover_resets_witness :
    (Zen.rolloverCheck "2024-01-02"
        ⟨1200, 3600, 4, 17, 90, false, ⟨"2024-01-01", 4, 2, 1, 300⟩, none, none,
          "2024-01-01"⟩).todayStats = ⟨"2024-01-02", 0, 0, 0, 0⟩ ∧
    (Zen.rolloverCheck "2024-01-02"
        ⟨1200, 3600, 4, 17, 90, false, ⟨"2024-01-01", 4, 2, 1, 300⟩, none, none,
          "2024-01-01"⟩).waterCount = 0 ∧
    (Zen.rolloverCheck "2024-01-02"
        ⟨1200, 3600, 4, 17, 90, false, ⟨"2024-01-01", 4, 2, 1, 300⟩, none, none,
          "2024-01-01"⟩).eyeBreakTimer = 1200 ∧
    (Zen.rolloverCheck "2024-01-02"
        ⟨1200, 3600, 4, 17, 90, false, ⟨"2024-01-01", 4, 2, 1, 300⟩, none, none,
          "2024-01-01"⟩).stretchTimer = 3600 :=
  claim_C7_rollover_resets _ "2024-01-02" (by decide)

/-- C10: the rollover check unconditionally unpauses: whenever it detects
a day change, the resulting state has `isPaused = false`, even if the
session was paused. -/
theorem claim_C10_rollover_unpauses (s : AppState) (current : String)
    (h : s.lastDay ≠ current) : (rolloverCheck current s).isPaused = false := by
  simp [rolloverCheck, bne_iff_ne, h]

/-- Witness for C10 at a concrete paused state. -/
theorem claim_C10_rollover_unpauses_witness :
    (Zen.rolloverCheck "2024-01-02"
        ⟨1200, 3600, 4, 17, 90, true, ⟨"2024-01-01", 4, 2, 1, 300⟩, none, none,
          "2024-01-01"⟩).isPaused = false :=
  claim_C10_rollover_unpauses _ "2024-01-02" (by decide)

/-- Dropping all but the last `n` elements keeps a list of length at most
`n` unchanged. -/
theorem drop_sub_of_le {α : Type} (l : List α) (n : Nat) (h : l.length ≤ n) :
    l.drop (l.length - n) = l := by
  rw [Nat.sub_eq_zero_of_le h, List.drop_zero]

/-- Embeds the bound of `.slice(Math.max(0, len - n))`: at most `n` elements remain. -/
theorem length_drop_sub_le {α : Type} (l : List α) (n : Nat) :
    (l.drop (l.length - n)).length ≤ n := by
  rw [List.length_drop]; omega

/-- After filtering out today's key, no entry with today's key remains. -/
theorem filter_bne_filter_beq (prev : List DayRecord) (dk : String) :
    (prev.filter (fun e => e.dayKey != dk)).filter (fun e => e.dayKey == dk) = [] := by
  rw [List.filter_eq_nil_iff]
  intro a ha
  have h2 := (List.mem_filter.mp ha).2
  simpa using h2

/-- Replacing the entry found by `findIndex` leaves exactly one entry with
the new record's key, namely the new record, provided the keys were
distinct and the key was present. -/
theorem filter_set_findIdx (p : DayRecord) :
    ∀ l : List DayRecord, (l.map (fun e => e.dayKey)).Nodup →
      p.dayKey ∈ l.map (fun e => e.dayKey) →
      (l.set (l.findIdx (fun e => e.dayKey == p.dayKey)) p).filter
        (fun e => e.dayKey == p.dayKey) = [p] := by
  intro l
  induction l with
  | nil => intro _ hmem; simp at hmem
  | cons a tl ih =>
    intro hnd hmem
    have hnd2 : (a.dayKey :: tl.map fun e => e.dayKey).Nodup := by
      rw [List.map_cons] at hnd; exact hnd
    by_cases ha : a.dayKey = p.dayKey
    · have hpa : (a.dayKey == p.dayKey) = true := by simpa using ha
      have hnotin : p.dayKey ∉ tl.map (fun e => e.dayKey) :=
        ha ▸ (List.nodup_cons.mp hnd2).1
      have htl : tl.filter (fun e => e.dayKey == p.dayKey) = [] := by
        rw [List.filter_eq_nil_iff]
        intro x hx hbeq
        exact hnotin (List.mem_map.mpr ⟨x, hx, by simpa using hbeq⟩)
      simp [List.findIdx_cons, hpa, htl]
    · have hpa : (a.dayKey == p.dayKey) = false := by simpa using ha
      have hmem' : p.dayKey ∈ tl.map (fun e => e.dayKey) := by
        rcases (by simpa using hmem : p.dayKey = a.dayKey ∨ p.dayKey ∈ tl.map fun e => e.dayKey)
          with h | h
        · exact absurd h.symm ha
        · exact h
      have hnd' : (tl.map (fun e => e.dayKey)).Nodup := (List.nodup_cons.mp hnd2).2
      simp [List.findIdx_cons, hpa, ih hnd' hmem']

/-- C1: upserting a record whose `dayKey` is already present in a
well-formed ledger (at most 30 entries, distinct keys) leaves exactly one
entry for that key — the new record with its fields — in both the app's
upsert effect and `upsertTodayStats`. -/
theorem claim_C1_upsert_replaces (prev : List DayRecord) (p : DayRecord)
    (hlen : prev.length ≤ 30) (hnd : (prev.map (fun e => e.dayKey)).Nodup)
    (hmem : p.dayKey ∈ prev.map (fun e => e.dayKey)) :
    (upsertEffect prev p).filter (fun e => e.dayKey == p.dayKey) = [p] ∧
    (upsertTodayStats prev p 30).filter (fun e => e.dayKey == p.dayKey) = [p] := by
  obtain ⟨w, hwmem, hwkey⟩ := List.mem_map.mp hmem
  constructor
  · have hflt : (prev.filter (fun e => e.dayKey != p.dayKey)).length < prev.length := by
      rw [List.length_filter_lt_length_iff_exists]
      exact ⟨w, hwmem, by simp [hwkey]⟩
    have hkeep : upsertEffect prev p =
        ((prev.filter (fun e => e.dayKey != p.dayKey)) ++ [p]).mergeSort byDayKey := by
      simp only [upsertEffect]
      exact drop_sub_of_le _ _
        (by rw [List.length_mergeSort, List.length_append, List.length_cons,
              List.length_nil]; omega)
    rw [hkeep]
    have hperm :=
      (List.mergeSort_perm ((prev.filter (fun e => e.dayKey != p.dayKey)) ++ [p])
        byDayKey).filter (fun e => e.dayKey == p.dayKey)
    rw [List.filter_append, filter_bne_filter_beq, List.nil_append] at hperm
    rw [show ([p].filter (fun e => e.dayKey == p.dayKey)) = [p] from by simp] at hperm
    exact hperm.eq_singleton
  · have hidx : prev.findIdx (fun e => e.dayKey == p.dayKey) < prev.length :=
      List.findIdx_lt_length_of_exists ⟨w, hwmem, by simp [hwkey]⟩
    have hupd : upsertTodayStats prev p 30 =
        ((prev.set (prev.findIdx (fun e => e.dayKey == p.dayKey)) p).mergeSort byDayKey) := by
      simp only [upsertTodayStats, if_pos hidx]
      exact drop_sub_of_le _ _
        (by rw [List.length_mergeSort, List.length_set]; exact hlen)
    rw [hupd]
    have hperm :=
      (List.mergeSort_perm (prev.set (prev.findIdx (fun e => e.dayKey == p.dayKey)) p)
        byDayKey).filter (fun e => e.dayKey == p.dayKey)
    rw [filter_set_findIdx p prev hnd hmem] at hperm
    exact hperm.eq_singleton

/-- Witness for C1: replacing day `2024-01-02` in a two-day ledger. -/
theorem claim_C1_upsert_replaces_witness :
    ([⟨"2024-01-01", 3, 0, 0, 0⟩, ⟨"2024-01-02", 1, 0, 0, 0⟩] : List DayRecord).length ≤ 30 ∧
    (Zen.upsertEffect [⟨"2024-01-01", 3, 0, 0, 0⟩, ⟨"2024-01-02", 1, 0, 0, 0⟩]
        ⟨"2024-01-02", 7, 1, 0, 60⟩).filter
      (fun e => e.dayKey == "2024-01-02") = [⟨"2024-01-02", 7, 1, 0, 60⟩] ∧
    (Zen.upsertTodayStats [⟨"2024-01-01", 3, 0, 0, 0⟩, ⟨"2024-01-02", 1, 0, 0, 0⟩]
        ⟨"2024-01-02", 7, 1, 0, 60⟩ 30).filter
      (fun e => e.dayKey == "2024-01-02") = [⟨"2024-01-02", 7, 1, 0, 60⟩] :=
  ⟨by decide,
   (claim_C1_upsert_replaces [⟨"2024-01-01", 3, 0, 0, 0⟩, ⟨"2024-01-02", 1, 0, 0, 0⟩]
      ⟨"2024-01-02", 7, 1, 0, 60⟩ (by decide) (by decide) (by decide)).1,
   (claim_C1_upsert_replaces [⟨"2024-01-01", 3, 0, 0, 0⟩, ⟨"2024-01-02", 1, 0, 0, 0⟩]
      ⟨"2024-01-02", 7, 1, 0, 60⟩ (by decide) (by decide) (by decide)).2⟩

/-- Thirty-one sequential active days `2024-03-01` … `2024-03-31`. -/
def scenario31 : List DayRecord :=
  (List.range 31).map (fun i => ⟨"2024-03-" ++ pad2 (i + 1), 1, 0, 0, 0⟩)

/-- Upserting a record whose key is strictly above every key of a sorted
ledger appends it and trims from the front. -/
theorem upsertEffect_append_of_lt (lst : List DayRecord) (p : DayRecord)
    (hsorted : lst.Pairwise (fun a b => byDayKey a b = true))
    (hlt : ∀ e ∈ lst, e.dayKey.data < p.dayKey.data) :
    upsertEffect lst p = (lst ++ [p]).drop ((lst.length + 1) - 30) := by
  have hfil : lst.filter (fun e => e.dayKey != p.dayKey) = lst := by
    rw [List.filter_eq_self]
    intro e he
    have : e.dayKey ≠ p.dayKey := fun hk => ne_of_lt (hlt e he) (congrArg String.data hk)
    simpa using this
  have hsort2 : (lst ++ [p]).Pairwise (fun a b => byDayKey a b = true) := by
    rw [List.pairwise_append]
    refine ⟨hsorted, List.pairwise_singleton _ _, ?_⟩
    intro a ha b hb
    rw [List.mem_singleton] at hb
    subst hb
    simpa [byDayKey] using hlt a ha
  simp only [upsertEffect]
  rw [hfil, List.mergeSort_of_sorted hsort2]
  congr 1
  simp

/-- Closed form of a run of upserts with strictly increasing keys: the
ledger is the input minus its oldest overflow. -/
theorem runUpserts_of_strict_sorted (ops : List DayRecord)
    (h : ops.Pairwise (fun a b => byDayKey a b = true)) :
    runUpserts ops = ops.drop (ops.length - 30) := by
  induction ops using List.reverseRecOn with
  | nil => rfl
  | append_singleton ops p ih =>
    rw [List.pairwise_append] at h
    obtain ⟨hops, _, hcross⟩ := h
    have hclosed : runUpserts ops = ops.drop (ops.length - 30) := ih hops
    have hlt : ∀ e ∈ runUpserts ops, e.dayKey.data < p.dayKey.data := by
      intro e he
      have hmem : e ∈ ops := by
        rw [hclosed] at he
        exact List.mem_of_mem_drop he
      simpa [byDayKey] using hcross e hmem p (List.mem_singleton_self p)
    have hsorted : (runUpserts ops).Pairwise (fun a b => byDayKey a b = true) := by
      rw [hclosed]
      exact hops.sublist (List.drop_sublist _ _)
    have hstep : runUpserts (ops ++ [p]) = upsertEffect (runUpserts ops) p := by
      unfold runUpserts
      rw [List.foldl_append]
      rfl
    rw [hstep, upsertEffect_append_of_lt _ _ hsorted hlt, hclosed]
    rw [← List.drop_append_of_le_length (by omega), List.length_drop, List.drop_drop]
    congr 1
    simp only [List.length_append, List.length_cons, List.length_nil]
    omega

/-- C2: both upsert implementations keep the ledger at 30 entries or
fewer; each entry the sort considered is either retained or bounded above
(by `dayKey`) by every retained entry, so the retained entries are the
most recent by `dayKey`; and after 31 upserts with strictly increasing
keys the ledger has exactly 30 entries, the oldest retained key is day 2,
and day 1 has been dropped. -/
theorem claim_C2_bounded_ledger :
    (∀ prev p, (upsertEffect prev p).length ≤ 30) ∧
    (∀ prev p, (upsertTodayStats prev p 30).length ≤ 30) ∧
    (∀ prev p x, x ∈ prev.filter (fun e => e.dayKey != p.dayKey) ++ [p] →
      x ∈ upsertEffect prev p ∨ ∀ y ∈ upsertEffect prev p, x.dayKey.data ≤ y.dayKey.data) ∧
    ((runUpserts scenario31).length = 30 ∧
      ((runUpserts scenario31).map (fun e => e.dayKey)).head? = some "2024-03-02" ∧
      "2024-03-01" ∉ (runUpserts scenario31).map (fun e => e.dayKey)) := by
  refine ⟨?_, ?_, ?_, ?_⟩
  · intro prev p
    simp only [upsertEffect]
    exact length_drop_sub_le _ 30
  · intro prev p
    simp only [upsertTodayStats]
    exact length_drop_sub_le _ 30
  · intro prev p x hx
    have hmemx : x ∈ (prev.filter (fun e => e.dayKey != p.dayKey) ++ [p]).mergeSort byDayKey :=
      List.mem_mergeSort.mpr hx
    have hres : upsertEffect prev p =
        ((prev.filter (fun e => e.dayKey != p.dayKey) ++ [p]).mergeSort byDayKey).drop
          (((prev.filter (fun e => e.dayKey != p.dayKey) ++ [p]).mergeSort byDayKey).length - 30) :=
      rfl
    generalize hM : (prev.filter (fun e => e.dayKey != p.dayKey) ++ [p]).mergeSort byDayKey = M
      at hmemx hres
    have hpw : M.Pairwise keyLE := hM ▸ pairwise_keyLE_mergeSort _
    have hsplit : M.take (M.length - 30) ++ M.drop (M.length - 30) = M :=
      List.take_append_drop _ _
    rcases List.mem_append.mp (by rw [hsplit]; exact hmemx) with htake | hdrop
    · right
      intro y hy
      have hall := (List.pairwise_append.mp (by rw [hsplit]; exact hpw)).2.2
      exact hall x htake y (by rw [hres] at hy; exact hy)
    · left
      rw [hres]
      exact hdrop
  · have hpair : scenario31.Pairwise (fun a b => byDayKey a b = true) := by decide
    have hrun : runUpserts scenario31 = scenario31.drop (scenario31.length - 30) :=
      runUpserts_of_strict_sorted _ hpair
    rw [hrun]
    refine ⟨by decide, by decide, by decide⟩

/-- Witness for C2's retention component at a concrete upsert. -/
theorem claim_C2_bounded_ledger_witness :
    (⟨"2024-01-01", 1, 0, 0, 0⟩ : DayRecord) ∈
      ([] : List DayRecord).filter (fun e => e.dayKey != "2024-01-01") ++
        [⟨"2024-01-01", 1, 0, 0, 0⟩] ∧
    ((⟨"2024-01-01", 1, 0, 0, 0⟩ : DayRecord) ∈
        Zen.upsertEffect [] ⟨"2024-01-01", 1, 0, 0, 0⟩ ∨
      ∀ y ∈ Zen.upsertEffect [] ⟨"2024-01-01", 1, 0, 0, 0⟩,
        ("2024-01-01" : String).data ≤ y.dayKey.data) :=
  ⟨by decide,
   claim_C2_bounded_ledger.2.2.1 [] ⟨"2024-01-01", 1, 0, 0, 0⟩ ⟨"2024-01-01", 1, 0, 0, 0⟩
     (by decide)⟩

/-- Folding the app's upsert over any operations keeps the result sorted. -/
theorem foldl_upsertEffect_pairwise (ops : List DayRecord) :
    ∀ acc : List DayRecord, acc.Pairwise keyLE →
      (ops.foldl upsertEffect acc).Pairwise keyLE := by
  induction ops with
  | nil => intro acc h; exact h
  | cons p ops ih => intro acc _; exact ih _ (pairwise_keyLE_upsertEffect acc p)

/-- The same for `upsertTodayStats`. -/
theorem foldl_upsertTodayStats_pairwise (ops : List DayRecord) :
    ∀ acc : List DayRecord, acc.Pairwise keyLE →
      (ops.foldl (fun acc p => upsertTodayStats acc p 30) acc).Pairwise keyLE := by
  induction ops with
  | nil => intro acc h; exact h
  | cons p ops ih => intro acc _; exact ih _ (pairwise_keyLE_upsertTodayStats acc p 30)

/-- C3: every ledger reachable by a sequence of upserts from the empty
ledger — through the app's upsert effect or through `upsertTodayStats` —
is non-decreasing by `dayKey` string comparison. -/
theorem claim_C3_sort_invariant (ops : List DayRecord) :
    (runUpserts ops).Pairwise keyLE ∧ (runUpsertsHistory ops).Pairwise keyLE :=
  ⟨foldl_upsertEffect_pairwise ops [] List.Pairwise.nil,
   foldl_upsertTodayStats_pairwise ops [] List.Pairwise.nil⟩

/-- The all-absent snapshot (every field missing or of the wrong type). -/
def emptySnapshot : Snapshot :=
  ⟨none, none, none, none, none, none, none, none, none, none⟩

/-- C9: missing, unparseable or wrongly-shaped persisted values at the
history or state key all fail soft: `loadHistory` yields `[]` for a
missing value, an empty string, a parse error, or a non-array parse
result; `readLS` yields its fallback for a missing value, an empty string
or a parse error; and the load effect leaves all defaults in place when
the snapshot is absent or carries no recognizable field.  No case throws
(every modelled function is total). -/
theorem claim_C9_fail_soft :
    (∀ parse, loadHistory parse none = []) ∧
    (∀ parse, loadHistory parse (some "") = []) ∧
    (∀ parse v, parse v = none → loadHistory parse (some v) = []) ∧
    (∀ parse v j, parse v = some j → (∀ elems, j ≠ Json.arr elems) →
      loadHistory parse (some v) = []) ∧
    (∀ parse fallback, readLS parse none fallback = fallback) ∧
    (∀ parse fallback, readLS parse (some "") fallback = fallback) ∧
    (∀ parse v fallback, parse v = none → readLS parse (some v) fallback = fallback) ∧
    (∀ current, loadState none current = initialState current) ∧
    (∀ current, loadState (some emptySnapshot) current = initialState current) := by
  refine ⟨fun _ => rfl, fun _ => rfl, ?_, ?_, fun _ _ => rfl, fun _ _ => rfl, ?_, fun _ => rfl,
    fun _ => rfl⟩
  · intro parse v h
    by_cases hv : v == "" <;> simp [loadHistory, hv, h]
  · intro parse v j h hj
    by_cases hv : v == ""
    · simp [loadHistory, hv]
    · cases j with
      | arr elems => exact absurd rfl (hj elems)
      | _ => simp [loadHistory, hv, h]
  · intro parse v fallback h
    by_cases hv : v == "" <;> simp [readLS, safeParse, hv, h]

/-- Witness for C9: a parser that throws, and one returning a non-array,
both yield the empty history. -/
theorem claim_C9_fail_soft_witness :
    Zen.loadHistory (fun _ => none) (some "xyz") = [] ∧
    Zen.loadHistory (fun _ => some (Zen.Json.num 0)) (some "0") = [] :=
  ⟨claim_C9_fail_soft.2.2.1 (fun _ => none) "xyz" rfl,
   claim_C9_fail_soft.2.2.2.1 (fun _ => some (Zen.Json.num 0)) "0" (Zen.Json.num 0) rfl
     (fun _ h => Zen.Json.noConfusion h)⟩

/-- The clamp `clampInt` lands in `[mn, mx]` whenever the interval is non-empty. -/
theorem clampInt_bounds (v : Int) {mn mx : Int} (h : mn ≤ mx) :
    mn ≤ clampInt v mn mx ∧ clampInt v mn mx ≤ mx :=
  ⟨le_min h (le_max_left mn v), min_le_left mx _⟩

/-- The snapshot of the C8 counterexample: a stale day and an
out-of-range stored `eyeBreakInterval`. -/
def staleSnapshot : Snapshot :=
  { waterGoal := none, eyeBreakInterval := some 10000, stretchInterval := none,
    soundEnabled := none, darkMode := none, waterCount := none, eyeBreakTimer := none,
    stretchTimer := none, isPaused := none, todayStats := some ⟨some "2025-05-01", none, none, none, none⟩ }

/-- C8 counterexample: restoring `staleSnapshot` on `2025-05-02` (the
snapshot's `dayKey` differs from the current day) clamps the configured
eye interval to 7200 but initializes the eye countdown from the raw
stored value 10000, which is outside the countdown's valid domain
`[1, 7200]` and differs from the restored configured interval — so not
every restored numeric field is clamped into its valid domain in the
different-day branch. -/
theorem claim_C8_counterexample :
    (loadState (some staleSnapshot) "2025-05-02").eyeBreakInterval = 7200 ∧
    (loadState (some staleSnapshot) "2025-05-02").eyeBreakTimer = 10000 ∧
    ¬ (loadState (some staleSnapshot) "2025-05-02").eyeBreakTimer ≤ 7200 := by
  refine ⟨rfl, rfl, by decide⟩

/-- C8 (amended): at load-time reconciliation the restored settings are
clamped into their domains in both branches, and in the same-day branch
every restored counter and countdown is clamped into its stated range;
but in the different-day branch the counters are zeroed and the
countdowns are initialized from the snapshot's raw interval fields
(`s.eyeBreakInterval ?? 1200`, `s.stretchInterval ?? 3600`), not from the
clamped restored interval values, and may therefore lie outside their
valid domains. -/
theorem claim_C8_load_clamping (s : Snapshot) (current : String) :
    (6 ≤ (loadState (some s) current).waterGoal ∧
      (loadState (some s) current).waterGoal ≤ 12) ∧
    (600 ≤ (loadState (some s) current).eyeBreakInterval ∧
      (loadState (some s) current).eyeBreakInterval ≤ 7200) ∧
    (900 ≤ (loadState (some s) current).stretchInterval ∧
      (loadState (some s) current).stretchInterval ≤ 10800) ∧
    (∀ ts, s.todayStats = some ts → ts.dayKey = some current →
      (0 ≤ (loadState (some s) current).todayStats.water ∧
        (loadState (some s) current).todayStats.water ≤ 500) ∧
      (0 ≤ (loadState (some s) current).todayStats.eyeBreaks ∧
        (loadState (some s) current).todayStats.eyeBreaks ≤ 500) ∧
      (0 ≤ (loadState (some s) current).todayStats.stretches ∧
        (loadState (some s) current).todayStats.stretches ≤ 500) ∧
      (0 ≤ (loadState (some s) current).todayStats.workTime ∧
        (loadState (some s) current).todayStats.workTime ≤ 24 * 3600) ∧
      (0 ≤ (loadState (some s) current).waterCount ∧
        (loadState (some s) current).waterCount ≤ 200) ∧
      (1 ≤ (loadState (some s) current).eyeBreakTimer ∧
        (loadState (some s) current).eyeBreakTimer ≤ 7200) ∧
      (1 ≤ (loadState (some s) current).stretchTimer ∧
        (loadState (some s) current).stretchTimer ≤ 10800)) ∧
    ((s.todayStats.bind fun ts => ts.dayKey) ≠ some current →
      (loadState (some s) current).todayStats = ⟨current, 0, 0, 0, 0⟩ ∧
      (loadState (some s) current).waterCount = 0 ∧
      (loadState (some s) current).eyeBreakTimer = s.eyeBreakInterval.getD 1200 ∧
      (loadState (some s) current).stretchTimer = s.stretchInterval.getD 3600) := by
  obtain ⟨wg, ebi, si, se, dm, wc, ebt, st, ip, ts?⟩ := s
  have hsettings :
      ∀ (o : Option Int) (d mn mx : Int), mn ≤ d → d ≤ mx →
        mn ≤ (match o with | some v => clampInt v mn mx | none => d) ∧
          (match o with | some v => clampInt v mn mx | none => d) ≤ mx := by
    intro o d mn mx h1 h2
    cases o with
    | none => exact ⟨h1, h2⟩
    | some v => exact clampInt_bounds v (le_trans h1 h2)
  rcases ts? with _ | ts
  · refine ⟨?_, ?_, ?_, ?_, ?_⟩
    · simpa [loadState] using hsettings wg 8 6 12 (by omega) (by omega)
    · simpa [loadState] using hsettings ebi 1200 600 7200 (by omega) (by omega)
    · simpa [loadState] using hsettings si 3600 900 10800 (by omega) (by omega)
    · intro ts h; exact absurd h (by simp)
    · intro _; refine ⟨rfl, rfl, rfl, rfl⟩
  · by_cases hd : ts.dayKey = some current
    · refine ⟨?_, ?_, ?_, ?_, ?_⟩
      · simpa [loadState, hd] using hsettings wg 8 6 12 (by omega) (by omega)
      · simpa [loadState, hd] using hsettings ebi 1200 600 7200 (by omega) (by omega)
      · simpa [loadState, hd] using hsettings si 3600 900 10800 (by omega) (by omega)
      · intro ts' hts' hd'
        refine ⟨?_, ?_, ?_, ?_, ?_, ?_, ?_⟩ <;>
          simpa [loadState, hd] using clampInt_bounds _ (by omega)
      · intro hne
        exact absurd (by simpa using hd) hne
    · refine ⟨?_, ?_, ?_, ?_, ?_⟩
      · simpa [loadState, hd] using hsettings wg 8 6 12 (by omega) (by omega)
      · simpa [loadState, hd] using hsettings ebi 1200 600 7200 (by omega) (by omega)
      · simpa [loadState, hd] using hsettings si 3600 900 10800 (by omega) (by omega)
      · intro ts' hts' hd'
        have : ts = ts' := by injection hts'
        exact absurd (this ▸ hd') hd
      · intro _
        refine ⟨?_, ?_, ?_, ?_⟩ <;> simp [loadState, hd]

/-- Witness for C8 (amended), instantiating the different-day branch at
`staleSnapshot`. -/
theorem claim_C8_load_clamping_witness :
    (staleSnapshot.todayStats.bind fun ts => ts.dayKey) ≠ some "2025-05-02" ∧
    ((loadState (some staleSnapshot) "2025-05-02").todayStats = ⟨"2025-05-02", 0, 0, 0, 0⟩ ∧
     (loadState (some staleSnapshot) "2025-05-02").waterCount = 0 ∧
     (loadState (some staleSnapshot) "2025-05-02").eyeBreakTimer =
       staleSnapshot.eyeBreakInterval.getD 1200 ∧
     (loadState (some staleSnapshot) "2025-05-02").stretchTimer =
       staleSnapshot.stretchInterval.getD 3600) :=
  ⟨by decide, (claim_C8_load_clamping staleSnapshot "2025-05-02").2.2.2.2 (by decide)⟩

end Zen
